import Mathlib

/-!
Shallow embedding of the lovebug_map_backend real-time core:
the connection registry / fan-out broadcaster
(`src/app/utils/websocket_manager.py`), the live-channel endpoint and the
scheduled ingest pipeline orchestration (`src/app/main.py`,
`src/app/crawlers/twitter_crawler.py`).

Modelling conventions:
* a channel (Python `WebSocket` object) is an opaque handle, embedded as `Nat`;
* Python's insertion-ordered `dict` keyed by channel is an association list
  `List (Nat × ConnInfo)`; `dict` assignment and `dict.pop` are `dictSet`
  and `dictPop`;
* network sends can fail; the outcome of `send_text` on each channel is an
  oracle `sendOk : Nat → Bool` supplied to the operation;
* `json.dumps` is abstracted as the identity on an opaque message string;
  each operation's result records the list of serializer invocations and the
  list of `send_text` attempts so that claims about "how often" can be stated;
* an exception propagating out of an operation is `Except.error`;
  exceptions caught inside the source function never surface in the model.
-/

namespace LovebugMap

/-- Per-channel metadata. `connect` in the source stores
`{'user_id': user_id, 'connected_at': None, 'last_activity': None}`;
the two timestamp fields are therefore `Option Nat` (a clock value or the
Python `None`). -/
structure ConnInfo where
  user_id : Option String
  connected_at : Option Nat
  last_activity : Option Nat
deriving DecidableEq, Repr

/-- State of `WebSocketManager`: the `active_connections` list and the
`connection_info` dict (insertion-ordered association list). -/
structure WSState where
  active_connections : List Nat
  connection_info : List (Nat × ConnInfo)
deriving DecidableEq, Repr

/-- `WebSocketManager.__init__`: both structures empty. -/
def wsInit : WSState := ⟨[], []⟩

/-- Python `dict` assignment `d[k] = v`: replace the value in place if the
key is present (keeping its insertion position), otherwise append. -/
def dictSet (m : List (Nat × ConnInfo)) (k : Nat) (v : ConnInfo) :
    List (Nat × ConnInfo) :=
  match m with
  | [] => [(k, v)]
  | (k₁, v₁) :: rest =>
      if k₁ = k then (k, v) :: rest else (k₁, v₁) :: dictSet rest k v

/-- Python `dict.pop(k, default)`: drop the entry with key `k` if present. -/
def dictPop (m : List (Nat × ConnInfo)) (k : Nat) : List (Nat × ConnInfo) :=
  match m with
  | [] => []
  | (k₁, v₁) :: rest =>
      if k₁ = k then rest else (k₁, v₁) :: dictPop rest k

/-- The mutation part of `WebSocketManager.connect`, i.e. everything after
`await websocket.accept()` succeeded: append to `active_connections` and
store the metadata dict (timestamps literally `None` in the source). -/
def connect (st : WSState) (ws : Nat) (uid : Option String) : WSState :=
  { active_connections := st.active_connections ++ [ws],
    connection_info := dictSet st.connection_info ws ⟨uid, none, none⟩ }

/-- `WebSocketManager.connect` including the handshake:
`await websocket.accept()` runs first and may raise; on failure the
exception propagates (`.error`) before any mutation. `acceptOk` is the
oracle for the handshake outcome. -/
def connectE (acceptOk : Bool) (st : WSState) (ws : Nat) (uid : Option String) :
    Except Unit WSState :=
  if acceptOk then .ok (connect st ws uid) else .error ()

/-- The registry state after a `connect` call as the caller observes it:
on handshake failure the exception surfaced before any mutation, so the
state is unchanged. -/
def runConnect (acceptOk : Bool) (st : WSState) (ws : Nat) (uid : Option String) :
    WSState :=
  match connectE acceptOk st ws uid with
  | .ok st₁ => st₁
  | .error _ => st

/-- `WebSocketManager.disconnect`: if the channel is in
`active_connections`, remove it (Python `list.remove`: first occurrence)
and pop its metadata; otherwise do nothing. -/
def disconnect (st : WSState) (ws : Nat) : WSState :=
  if ws ∈ st.active_connections then
    { active_connections := st.active_connections.erase ws,
      connection_info := dictPop st.connection_info ws }
  else st

/-- Result of an operation that may send: the final registry state, the
serializer (`json.dumps`) invocations, the `send_text` attempts
(channel, serialized text) and the successful deliveries. -/
structure SendOutcome where
  state : WSState
  serialized : List String
  attempts : List (Nat × String)
  delivered : List (Nat × String)
deriving DecidableEq, Repr

/-- `WebSocketManager.send_personal_message`: serialize, try the send; on
failure the exception is caught and the channel is disconnected. -/
def send_personal_message (sendOk : Nat → Bool) (st : WSState) (msg : String)
    (ws : Nat) : SendOutcome :=
  if sendOk ws then ⟨st, [msg], [(ws, msg)], [(ws, msg)]⟩
  else ⟨disconnect st ws, [msg], [(ws, msg)], []⟩

/-- `WebSocketManager.broadcast`: early return on an empty registry
(before `json.dumps`); otherwise serialize once, attempt a send to every
member of `active_connections` (a failure is caught, recorded in
`disconnected_connections`, and the loop continues), and only after the
full pass disconnect every failed channel. The loop body never mutates
`active_connections`, so the iteration visits exactly the members present
at call start; `disconnected_connections` collects the failing members in
order, i.e. `active_connections.filter (fun c => !sendOk c)`. -/
def broadcast (sendOk : Nat → Bool) (st : WSState) (msg : String) :
    SendOutcome :=
  if st.active_connections.isEmpty then ⟨st, [], [], []⟩
  else
    { state :=
        (st.active_connections.filter (fun c => !sendOk c)).foldl disconnect st,
      serialized := [msg],
      attempts := st.active_connections.map (fun c => (c, msg)),
      delivered :=
        (st.active_connections.filter (fun c => sendOk c)).map
          (fun c => (c, msg)) }

/-- Result of `send_to_user`: registry state, returned boolean, and the
send attempts performed. -/
structure SendToUserOutcome where
  state : WSState
  found : Bool
  serialized : List String
  attempts : List (Nat × String)
deriving DecidableEq, Repr

/-- `WebSocketManager.send_to_user`: scan `connection_info.items()` in
insertion order; on the first entry whose `user_id` equals the argument,
delegate to `send_personal_message` and return `True`; if no entry
matches, return `False` without sending. -/
def send_to_user (sendOk : Nat → Bool) (st : WSState) (uid : String)
    (msg : String) : SendToUserOutcome :=
  match st.connection_info.find? (fun p => p.2.user_id == some uid) with
  | some (c, _) =>
      let r := send_personal_message sendOk st msg c
      ⟨r.state, true, r.serialized, r.attempts⟩
  | none => ⟨st, false, [], []⟩

/-- `WebSocketManager.get_connection_count`. -/
def get_connection_count (st : WSState) : Nat :=
  st.active_connections.length

/-- `WebSocketManager.get_connected_users`: the `user_id` of every
metadata entry whose `user_id` is truthy (not `None`, not `""`). -/
def get_connected_users (st : WSState) : List String :=
  st.connection_info.filterMap (fun p =>
    match p.2.user_id with
    | some s => if s = "" then none else some s
    | none => none)

/-- The reply `websocket_endpoint` in `src/app/main.py` sends for every
client text frame received: the dict
`{"type": "pong", "message": "연결 유지됨"}`, independent of the frame's
content. Embedded as the insertion-ordered key/value list of the dict. -/
def websocket_endpoint_reply (frame : String) : List (String × String) :=
  [("type", "pong"), ("message", "연결 유지됨")]

/-! ### Scheduled ingest pipeline (`crawl_and_update` / `TwitterCrawler`) -/

/-- A raw source item (`TweetData` in `twitter_crawler.py`); only the
fields the pipeline claims depend on are carried. -/
structure TweetData where
  id : String
  text : String
deriving DecidableEq, Repr

/-- A normalized report (`LovebugReport`); `tweet_id` is the upsert key,
`content` stands for the remaining payload fields. -/
structure Report where
  tweet_id : String
  content : String
deriving DecidableEq, Repr

/-- `TwitterCrawler.crawl_lovebug_tweets`, with fetching already done
(`tweets` is the raw batch) and `_process_tweet` abstracted as the oracle
`process`: `_process_tweet` runs the extraction collaborators inside
`try/except` and returns `None` when any of them raises, so
`process t = none` models "extraction of `t` threw". The loop appends
each non-`None` report and never aborts. -/
def crawl_lovebug_tweets (process : TweetData → Option Report)
    (tweets : List TweetData) : List Report :=
  tweets.foldl (fun reports t =>
    match process t with
    | some report => reports ++ [report]
    | none => reports) []

/-- The message `crawl_and_update` hands to the broadcaster:
`{"type": "lovebug_update", "data": [report.dict() ...]}`. -/
structure PipelineMessage where
  mtype : String
  data : List Report
deriving DecidableEq, Repr

/-- Observable effects of one `crawl_and_update` run: the upsert keys
written to the report store (in order) and the broadcaster invocations. -/
structure PipelineRun where
  upserts : List String
  broadcasts : List PipelineMessage
deriving DecidableEq, Repr

/-- `crawl_and_update` in `src/app/main.py`: crawl, then — only if the
resulting batch is non-empty (`if reports:`) — upsert each report keyed by
`tweet_id` and invoke `websocket_manager.broadcast` once with the whole
batch. -/
def crawl_and_update (process : TweetData → Option Report)
    (tweets : List TweetData) : PipelineRun :=
  let reports := crawl_lovebug_tweets process tweets
  if reports.isEmpty then ⟨[], []⟩
  else
    ⟨reports.map Report.tweet_id, [⟨"lovebug_update", reports⟩]⟩

/-! ### Traces of registry operations -/

/-- One register/unregister event against the registry. A `register`
event is a `connect` whose handshake succeeded. -/
inductive RegOp where
  | register (ws : Nat) (uid : Option String)
  | unregister (ws : Nat)
deriving DecidableEq, Repr

/-- Apply one event. -/
def applyOp (st : WSState) : RegOp → WSState
  | .register ws uid => connect st ws uid
  | .unregister ws => disconnect st ws

/-- Apply a sequence of events left to right. -/
def applyOps (st : WSState) (ops : List RegOp) : WSState :=
  ops.foldl applyOp st

/-- A trace is well-formed when `register` is only ever invoked for a
channel that is not currently in the active set — exactly the discipline
the channel lifecycle guarantees (a channel object is created by one
handshake and registered once). -/
def wfOps (st : WSState) : List RegOp → Bool
  | [] => true
  | op :: rest =>
      (match op with
       | .register ws _ => !(st.active_connections.contains ws)
       | .unregister _ => true)
      && wfOps (applyOp st op) rest

/-- One step of the spec-side count of registered channels. -/
def specRegStep (s : Finset Nat) (op : RegOp) : Finset Nat :=
  match op with
  | .register ws _ => insert ws s
  | .unregister ws => s.erase ws

/-- Modelled from the spec: "the number of channels that have been
registered and not since unregistered", read off a trace — `register`
adds the channel to the set, `unregister` removes it. -/
def specRegisteredSet (ops : List RegOp) : Finset Nat :=
  ops.foldl specRegStep ∅

/-! ### Registry invariants -/

/-- The keys of the `connection_info` dict. -/
def keysOf (st : WSState) : List Nat :=
  st.connection_info.map Prod.fst

/-- The membership invariant exactly as claimed: a channel is in
`active_connections` iff it has an entry in `connection_info`
(stated with bounded quantifiers, hence decidable). -/
def MembershipAgrees (st : WSState) : Prop :=
  (∀ c ∈ st.active_connections, c ∈ keysOf st) ∧
  (∀ c ∈ keysOf st, c ∈ st.active_connections)

instance (st : WSState) : Decidable (MembershipAgrees st) := by
  unfold MembershipAgrees; infer_instance

/-- The inductive registry invariant: membership agreement plus absence
of duplicates on both sides. -/
def RegistryInvariant (st : WSState) : Prop :=
  st.active_connections.Nodup ∧ (keysOf st).Nodup ∧ MembershipAgrees st

instance (st : WSState) : Decidable (RegistryInvariant st) := by
  unfold RegistryInvariant; infer_instance

/-! ### Helper lemmas about the dict operations -/

theorem dictSet_lookup (m : List (Nat × ConnInfo)) (k : Nat) (v : ConnInfo) :
    (dictSet m k v).lookup k = some v := by
  induction m with
  | nil => simp [dictSet, List.lookup]
  | cons hd tl ih =>
      obtain ⟨k₁, v₁⟩ := hd
      by_cases h : k₁ = k
      · simp [dictSet, h, List.lookup]
      · have hbeq : (k == k₁) = false := by simp [Ne.symm h]
        simp [dictSet, h, List.lookup, hbeq, ih]

theorem dictSet_keys_of_not_mem (m : List (Nat × ConnInfo)) (k : Nat)
    (v : ConnInfo) (h : k ∉ m.map Prod.fst) :
    (dictSet m k v).map Prod.fst = m.map Prod.fst ++ [k] := by
  induction m with
  | nil => simp [dictSet]
  | cons hd tl ih =>
      obtain ⟨k₁, v₁⟩ := hd
      simp only [List.map_cons, List.mem_cons] at h
      push_neg at h
      simp [dictSet, Ne.symm h.1, ih h.2]

theorem dictPop_keys (m : List (Nat × ConnInfo)) (k : Nat) :
    (dictPop m k).map Prod.fst = (m.map Prod.fst).erase k := by
  induction m with
  | nil => simp [dictPop]
  | cons hd tl ih =>
      obtain ⟨k₁, v₁⟩ := hd
      by_cases h : k₁ = k
      · simp [dictPop, h, List.erase_cons_head]
      · have hbeq : ¬(k₁ == k) = true := by simp [h]
        simp [dictPop, h, List.erase_cons_tail hbeq, ih]

/-! ### Helper lemmas about `disconnect` and `broadcast` -/

theorem disconnect_active (st : WSState) (ws : Nat) :
    (disconnect st ws).active_connections = st.active_connections.erase ws := by
  unfold disconnect
  by_cases h : ws ∈ st.active_connections
  · simp [h]
  · simp [h, List.erase_of_not_mem h]

theorem foldl_disconnect_active (fails : List Nat) (st : WSState) :
    ((fails.foldl disconnect st).active_connections) =
      fails.foldl List.erase st.active_connections := by
  induction fails generalizing st with
  | nil => rfl
  | cons x xs ih => simp [List.foldl_cons, ih, disconnect_active]

theorem foldl_erase_of_forall_ne (es : List Nat) (x : Nat) (l : List Nat)
    (h : ∀ e ∈ es, e ≠ x) :
    es.foldl List.erase (x :: l) = x :: es.foldl List.erase l := by
  induction es generalizing l with
  | nil => rfl
  | cons e es ih =>
      have hex : ¬(x == e) = true := by
        simp only [beq_iff_eq]
        exact fun hxe => h e (by simp) (hxe ▸ rfl)
      simp only [List.foldl_cons, List.erase_cons_tail hex]
      exact ih (l.erase e) (fun e₁ he₁ => h e₁ (by simp [he₁]))

theorem foldl_erase_filter (p : Nat → Bool) (l : List Nat) (hnd : l.Nodup) :
    (l.filter (fun c => !p c)).foldl List.erase l = l.filter p := by
  induction l with
  | nil => rfl
  | cons x xs ih =>
      obtain ⟨hx, hxs⟩ := List.nodup_cons.mp hnd
      by_cases hpx : p x
      · have h₁ : (x :: xs).filter (fun c => !p c) = xs.filter (fun c => !p c) := by
          simp [List.filter_cons, hpx]
        have h₂ : ∀ e ∈ xs.filter (fun c => !p c), e ≠ x := by
          intro e he hex
          exact hx (hex ▸ List.mem_of_mem_filter he)
        rw [h₁, foldl_erase_of_forall_ne _ x xs h₂, ih hxs]
        simp [List.filter_cons, hpx]
      · have h₁ : (x :: xs).filter (fun c => !p c) =
            x :: xs.filter (fun c => !p c) := by
          simp [List.filter_cons, hpx]
        rw [h₁]
        simp only [List.foldl_cons, List.erase_cons_head]
        rw [ih hxs]
        simp [List.filter_cons, hpx]

/-! ### Invariant preservation -/

theorem registryInvariant_connect (st : WSState) (ws : Nat) (uid : Option String)
    (hInv : RegistryInvariant st) (hws : ws ∉ st.active_connections) :
    RegistryInvariant (connect st ws uid) := by
  obtain ⟨hndA, hndK, hA, hK⟩ := hInv
  have hwk : ws ∉ keysOf st := fun h => hws (hK ws h)
  have hkeys : keysOf (connect st ws uid) = keysOf st ++ [ws] :=
    dictSet_keys_of_not_mem st.connection_info ws _ hwk
  refine ⟨?_, ?_, ?_, ?_⟩
  · simp [connect, List.nodup_append, hndA, hws]
  · rw [hkeys]
    simp [List.nodup_append, hndK, hwk]
  · intro c hc
    rw [hkeys]
    simp only [connect, List.mem_append, List.mem_singleton] at hc ⊢
    rcases hc with hc | hc
    · exact Or.inl (hA c hc)
    · exact Or.inr hc
  · intro c hc
    rw [hkeys] at hc
    simp only [connect, List.mem_append, List.mem_singleton] at hc ⊢
    rcases hc with hc | hc
    · exact Or.inl (hK c hc)
    · exact Or.inr hc

theorem registryInvariant_disconnect (st : WSState) (ws : Nat)
    (hInv : RegistryInvariant st) :
    RegistryInvariant (disconnect st ws) := by
  obtain ⟨hndA, hndK, hA, hK⟩ := hInv
  unfold disconnect
  by_cases h : ws ∈ st.active_connections
  · simp only [h, if_pos]
    have hkeys : (dictPop st.connection_info ws).map Prod.fst =
        (keysOf st).erase ws := dictPop_keys st.connection_info ws
    refine ⟨hndA.erase ws, ?_, ?_, ?_⟩
    · show ((dictPop st.connection_info ws).map Prod.fst).Nodup
      rw [hkeys]; exact hndK.erase ws
    · intro c hc
      show c ∈ (dictPop st.connection_info ws).map Prod.fst
      rw [hkeys]
      obtain ⟨hcw, hca⟩ := (hndA.mem_erase_iff).mp hc
      exact (hndK.mem_erase_iff).mpr ⟨hcw, hA c hca⟩
    · intro c hc
      replace hc : c ∈ (dictPop st.connection_info ws).map Prod.fst := hc
      rw [hkeys] at hc
      obtain ⟨hcw, hck⟩ := (hndK.mem_erase_iff).mp hc
      exact (hndA.mem_erase_iff).mpr ⟨hcw, hK c hck⟩
  · simp only [h, if_neg, if_false]
    exact ⟨hndA, hndK, hA, hK⟩

theorem registryInvariant_foldl_disconnect (fails : List Nat) (st : WSState)
    (hInv : RegistryInvariant st) :
    RegistryInvariant (fails.foldl disconnect st) := by
  induction fails generalizing st with
  | nil => exact hInv
  | cons x xs ih =>
      exact ih (disconnect st x) (registryInvariant_disconnect st x hInv)

theorem disconnect_removes (st : WSState) (ws : Nat)
    (hInv : RegistryInvariant st) :
    ws ∉ (disconnect st ws).active_connections ∧
      ws ∉ keysOf (disconnect st ws) := by
  obtain ⟨hndA, hndK, hA, hK⟩ := hInv
  unfold disconnect
  by_cases h : ws ∈ st.active_connections
  · simp only [h, if_pos]
    constructor
    · exact hndA.not_mem_erase
    · show ws ∉ (dictPop st.connection_info ws).map Prod.fst
      rw [dictPop_keys]
      exact hndK.not_mem_erase
  · rw [if_neg h]
    exact ⟨h, fun hk => h (hK ws hk)⟩

theorem count_eq_info_length (st : WSState) (hInv : RegistryInvariant st) :
    get_connection_count st = st.connection_info.length := by
  obtain ⟨hndA, hndK, hA, hK⟩ := hInv
  have hfin : st.active_connections.toFinset = (keysOf st).toFinset := by
    ext c
    simp only [List.mem_toFinset]
    exact ⟨fun hc => hA c hc, fun hc => hK c hc⟩
  have hperm := List.perm_of_nodup_nodup_toFinset_eq hndA hndK hfin
  have hlen := hperm.length_eq
  simpa [get_connection_count, keysOf] using hlen

theorem toFinset_erase_of_nodup (l : List Nat) (a : Nat) (hnd : l.Nodup) :
    (l.erase a).toFinset = l.toFinset.erase a := by
  ext c
  simp only [List.mem_toFinset, Finset.mem_erase]
  exact hnd.mem_erase_iff

/-- Relates a well-formed event trace to the spec-side registered set:
the active list stays duplicate-free and its member set is the fold of
`specRegStep` over the trace. -/
theorem applyOps_toFinset (ops : List RegOp) (st : WSState) (s : Finset Nat)
    (hw : wfOps st ops = true) (hnd : st.active_connections.Nodup)
    (hs : st.active_connections.toFinset = s) :
    (applyOps st ops).active_connections.Nodup ∧
      (applyOps st ops).active_connections.toFinset = ops.foldl specRegStep s := by
  induction ops generalizing st s with
  | nil => exact ⟨hnd, hs⟩
  | cons op rest ih =>
      simp only [wfOps, Bool.and_eq_true] at hw
      obtain ⟨hguard, hrest⟩ := hw
      have hstep : (applyOp st op).active_connections.Nodup ∧
          (applyOp st op).active_connections.toFinset = specRegStep s op := by
        cases op with
        | register ws uid =>
            have hguard₁ : (!st.active_connections.contains ws) = true := hguard
            have hws : ws ∉ st.active_connections := by
              intro hmem
              have hcont : st.active_connections.contains ws = true :=
                List.elem_iff.mpr hmem
              rw [hcont] at hguard₁
              cases hguard₁
            constructor
            · simp [applyOp, connect, List.nodup_append, hnd, hws]
            · rw [applyOp, specRegStep]
              show (st.active_connections ++ [ws]).toFinset = insert ws s
              rw [List.toFinset_append, hs]
              ext c
              simp [or_comm]
        | unregister ws =>
            constructor
            · rw [applyOp, disconnect_active]
              exact hnd.erase ws
            · rw [applyOp, disconnect_active, toFinset_erase_of_nodup _ _ hnd,
                hs, specRegStep]
      have := ih (applyOp st op) (specRegStep s op) hrest hstep.1 hstep.2
      simpa [applyOps, List.foldl_cons] using this

/-! ### Claim theorems -/

/-- C1: for a registry whose active members are {A, B, C} with B's send
failing and A's and C's succeeding, `broadcast m` delivers `m` to A and
to C (B's exception does not abort the remaining deliveries), afterwards
`count() = 2` and B is no longer active, and every channel that failed
during the pass is unregistered after the pass. -/
theorem C1_broadcast_failure_isolation (st : WSState) (a b c : Nat)
    (sendOk : Nat → Bool) (msg : String)
    (hact : st.active_connections = [a, b, c])
    (hab : a ≠ b) (hbc : b ≠ c) (hac : a ≠ c)
    (hA : sendOk a = true) (hB : sendOk b = false) (hC : sendOk c = true) :
    (a, msg) ∈ (broadcast sendOk st msg).delivered ∧
    (c, msg) ∈ (broadcast sendOk st msg).delivered ∧
    get_connection_count (broadcast sendOk st msg).state = 2 ∧
    b ∉ (broadcast sendOk st msg).state.active_connections ∧
    (∀ ch ∈ st.active_connections, sendOk ch = false →
      ch ∉ (broadcast sendOk st msg).state.active_connections) := by
  have hne : st.active_connections.isEmpty = false := by rw [hact]; rfl
  have hfail : st.active_connections.filter (fun x => !sendOk x) = [b] := by
    rw [hact]; simp [List.filter_cons, hA, hB, hC]
  have hdeliv : st.active_connections.filter (fun x => sendOk x) = [a, c] := by
    rw [hact]; simp [List.filter_cons, hA, hB, hC]
  have herase : st.active_connections.erase b = [a, c] := by
    rw [hact]
    have h₁ : ¬(a == b) = true := by simp [hab]
    rw [List.erase_cons_tail h₁, List.erase_cons_head]
  have hactive : (broadcast sendOk st msg).state.active_connections = [a, c] := by
    simp only [broadcast, hne, Bool.false_eq_true, if_false, hfail]
    rw [List.foldl_cons, List.foldl_nil, disconnect_active, herase]
  have hbnot : b ∉ ([a, c] : List Nat) := by
    simp only [List.mem_cons, List.mem_singleton, List.not_mem_nil, or_false, not_or]
    exact ⟨fun h => hab h.symm, hbc⟩
  refine ⟨?_, ?_, ?_, ?_, ?_⟩
  · simp [broadcast, hne, hdeliv]
  · simp [broadcast, hne, hdeliv]
  · rw [get_connection_count, hactive]; rfl
  · rw [hactive]; exact hbnot
  · intro ch hch hchfail
    rw [hactive]
    rw [hact] at hch
    simp only [List.mem_cons, List.mem_singleton, List.not_mem_nil, or_false] at hch
    rcases hch with h | h | h
    · rw [h] at hchfail; rw [hA] at hchfail; cases hchfail
    · rw [h]; exact hbnot
    · rw [h] at hchfail; rw [hC] at hchfail; cases hchfail

/-- C1 witness: channels 0, 1, 2 where sending to 1 fails. -/
theorem C1_broadcast_failure_isolation_witness :
    (0, "m") ∈ (broadcast (fun n => !(n == 1))
        (connect (connect (connect wsInit 0 none) 1 none) 2 none) "m").delivered ∧
    (2, "m") ∈ (broadcast (fun n => !(n == 1))
        (connect (connect (connect wsInit 0 none) 1 none) 2 none) "m").delivered ∧
    get_connection_count (broadcast (fun n => !(n == 1))
        (connect (connect (connect wsInit 0 none) 1 none) 2 none) "m").state = 2 ∧
    1 ∉ (broadcast (fun n => !(n == 1))
        (connect (connect (connect wsInit 0 none) 1 none) 2 none) "m").state.active_connections ∧
    (∀ ch ∈ (connect (connect (connect wsInit 0 none) 1 none) 2 none).active_connections,
      (fun n => !(n == 1)) ch = false →
        ch ∉ (broadcast (fun n => !(n == 1))
          (connect (connect (connect wsInit 0 none) 1 none) 2 none) "m").state.active_connections) :=
  C1_broadcast_failure_isolation
    (connect (connect (connect wsInit 0 none) 1 none) 2 none) 0 1 2
    (fun n => !(n == 1)) "m" rfl (by decide) (by decide) (by decide) rfl rfl rfl

/-- C2: on a non-empty registry, `broadcast` serializes the message
exactly once, attempts one send to every member present at call start (in
list order, a failure never removing later members from the pass), and
only after the full pass removes the failed members: the final active
list is exactly the call-start members whose send succeeded. -/
theorem C2_broadcast_snapshot_pass (st : WSState) (sendOk : Nat → Bool)
    (msg : String) (hne : st.active_connections ≠ [])
    (hnd : st.active_connections.Nodup) :
    (broadcast sendOk st msg).serialized = [msg] ∧
    (broadcast sendOk st msg).attempts =
      st.active_connections.map (fun c => (c, msg)) ∧
    (broadcast sendOk st msg).state.active_connections =
      st.active_connections.filter (fun c => sendOk c) := by
  have hne' : st.active_connections.isEmpty = false := by
    cases h : st.active_connections with
    | nil => exact absurd h hne
    | cons x xs => rfl
  refine ⟨?_, ?_, ?_⟩
  · simp [broadcast, hne']
  · simp [broadcast, hne']
  · simp only [broadcast, hne', Bool.false_eq_true, if_false]
    rw [foldl_disconnect_active, foldl_erase_filter sendOk _ hnd]

/-- C2 witness: registry [0, 1] where sending to 0 fails. -/
theorem C2_broadcast_snapshot_pass_witness :
    (broadcast (fun n => n == 1) (connect (connect wsInit 0 none) 1 none) "m").serialized
      = ["m"] ∧
    (broadcast (fun n => n == 1) (connect (connect wsInit 0 none) 1 none) "m").attempts
      = (connect (connect wsInit 0 none) 1 none).active_connections.map (fun c => (c, "m")) ∧
    (broadcast (fun n => n == 1) (connect (connect wsInit 0 none) 1 none) "m").state.active_connections
      = (connect (connect wsInit 0 none) 1 none).active_connections.filter (fun c => c == 1) :=
  C2_broadcast_snapshot_pass (connect (connect wsInit 0 none) 1 none)
    (fun n => n == 1) "m" (by decide) (by decide)

/-- C6: broadcasting to an empty registry is a no-op — zero serializer
invocations, zero send attempts, and the registry state is returned
unchanged. -/
theorem C6_broadcast_empty_noop (st : WSState) (sendOk : Nat → Bool)
    (msg : String) (h : st.active_connections = []) :
    broadcast sendOk st msg = ⟨st, [], [], []⟩ := by
  simp [broadcast, h]

/-- C6 witness: the fresh registry. -/
theorem C6_broadcast_empty_noop_witness :
    wsInit.active_connections = [] ∧
      broadcast (fun _ => true) wsInit "m" = ⟨wsInit, [], [], []⟩ :=
  ⟨rfl, C6_broadcast_empty_noop wsInit (fun _ => true) "m" rfl⟩

/-- C3 counterexample: registering the same channel twice (which the
source does not guard against) makes `count()` return 2 while only one
distinct channel has been registered and not since unregistered. -/
theorem C3_count_counterexample :
    get_connection_count
        (applyOps wsInit [RegOp.register 0 none, RegOp.register 0 none]) = 2 ∧
      (specRegisteredSet [RegOp.register 0 none, RegOp.register 0 none]).card = 1 := by
  decide

/-- C3 amended: for every sequence of register/unregister events in which
`register` is only invoked on channels not currently active (the
discipline the channel lifecycle guarantees), `count()` equals the number
of channels registered and not since unregistered. -/
theorem C3_count_matches_trace (ops : List RegOp)
    (hw : wfOps wsInit ops = true) :
    get_connection_count (applyOps wsInit ops) = (specRegisteredSet ops).card := by
  obtain ⟨hnd, hfin⟩ :=
    applyOps_toFinset ops wsInit ∅ hw List.nodup_nil (by rfl)
  rw [get_connection_count, ← List.toFinset_card_of_nodup hnd, hfin]
  rfl

/-- C3 witness: register 0 and 1, unregister 0. -/
theorem C3_count_matches_trace_witness :
    wfOps wsInit [RegOp.register 0 none, RegOp.register 1 (some "u"),
        RegOp.unregister 0] = true ∧
      get_connection_count (applyOps wsInit [RegOp.register 0 none,
          RegOp.register 1 (some "u"), RegOp.unregister 0]) =
        (specRegisteredSet [RegOp.register 0 none,
          RegOp.register 1 (some "u"), RegOp.unregister 0]).card :=
  ⟨by decide,
   C3_count_matches_trace
     [RegOp.register 0 none, RegOp.register 1 (some "u"), RegOp.unregister 0]
     (by decide)⟩

/-- C4: a pipeline run whose crawl yields zero reports performs zero
upserts and zero broadcaster invocations; a run whose crawl yields a
non-empty batch invokes the broadcaster exactly once, with a single
message carrying the full batch, and upserts each report of the batch. -/
theorem C4_pipeline_publishes_once (process : TweetData → Option Report)
    (tweets : List TweetData) :
    ((crawl_lovebug_tweets process tweets).isEmpty = true →
      crawl_and_update process tweets = ⟨[], []⟩) ∧
    ((crawl_lovebug_tweets process tweets).isEmpty = false →
      (crawl_and_update process tweets).broadcasts =
        [⟨"lovebug_update", crawl_lovebug_tweets process tweets⟩] ∧
      (crawl_and_update process tweets).upserts =
        (crawl_lovebug_tweets process tweets).map Report.tweet_id) := by
  constructor
  · intro h; simp [crawl_and_update, h]
  · intro h; simp [crawl_and_update, h]

/-- C4 witness: an all-failing run broadcasts nothing; a one-item run
broadcasts once with the full batch. -/
theorem C4_pipeline_publishes_once_witness :
    crawl_and_update (fun _ => none) [⟨"1", "t"⟩] = ⟨[], []⟩ ∧
      (crawl_and_update (fun t => some ⟨t.id, t.text⟩) [⟨"1", "t"⟩]).broadcasts =
        [⟨"lovebug_update",
          crawl_lovebug_tweets (fun t => some ⟨t.id, t.text⟩) [⟨"1", "t"⟩]⟩] :=
  ⟨(C4_pipeline_publishes_once (fun _ => none) [⟨"1", "t"⟩]).1 (by decide),
   ((C4_pipeline_publishes_once (fun t => some ⟨t.id, t.text⟩)
      [⟨"1", "t"⟩]).2 (by decide)).1⟩

/-- C5: with three raw items where extraction of the second throws and
the other two succeed, the run keeps items 1 and 3: the surviving batch
is exactly [r1, r3], both are upserted, and the broadcaster is invoked
once with that batch of size 2. -/
theorem C5_extraction_failure_drops_item (process : TweetData → Option Report)
    (t₁ t₂ t₃ : TweetData) (r₁ r₃ : Report)
    (h₁ : process t₁ = some r₁) (h₂ : process t₂ = none)
    (h₃ : process t₃ = some r₃) :
    crawl_lovebug_tweets process [t₁, t₂, t₃] = [r₁, r₃] ∧
    (crawl_and_update process [t₁, t₂, t₃]).upserts =
      [r₁.tweet_id, r₃.tweet_id] ∧
    (crawl_and_update process [t₁, t₂, t₃]).broadcasts =
      [⟨"lovebug_update", [r₁, r₃]⟩] := by
  have hc : crawl_lovebug_tweets process [t₁, t₂, t₃] = [r₁, r₃] := by
    simp [crawl_lovebug_tweets, h₁, h₂, h₃]
  refine ⟨hc, ?_, ?_⟩
  · simp [crawl_and_update, hc]
  · simp [crawl_and_update, hc]

/-- C5 witness: item "2" of three fails extraction. -/
theorem C5_extraction_failure_drops_item_witness :
    crawl_lovebug_tweets
        (fun t => if t.id = "2" then none else some ⟨t.id, t.text⟩)
        [⟨"1", "a"⟩, ⟨"2", "b"⟩, ⟨"3", "c"⟩] = [⟨"1", "a"⟩, ⟨"3", "c"⟩] ∧
      (crawl_and_update
          (fun t => if t.id = "2" then none else some ⟨t.id, t.text⟩)
          [⟨"1", "a"⟩, ⟨"2", "b"⟩, ⟨"3", "c"⟩]).upserts = ["1", "3"] ∧
      (crawl_and_update
          (fun t => if t.id = "2" then none else some ⟨t.id, t.text⟩)
          [⟨"1", "a"⟩, ⟨"2", "b"⟩, ⟨"3", "c"⟩]).broadcasts =
        [⟨"lovebug_update", [⟨"1", "a"⟩, ⟨"3", "c"⟩]⟩] :=
  C5_extraction_failure_drops_item
    (fun t => if t.id = "2" then none else some ⟨t.id, t.text⟩)
    ⟨"1", "a"⟩ ⟨"2", "b"⟩ ⟨"3", "c"⟩ ⟨"1", "a"⟩ ⟨"3", "c"⟩
    (by decide) (by decide) (by decide)

/-- C7: `send_to_user` returns `False` and performs no serialization and
no send when no registered channel carries the requested user id; when a
match exists, it sends to the first matching channel in registration
order and returns `True`; if that send fails, the channel is
unregistered, and if it succeeds the registry is unchanged. -/
theorem C7_send_to_user (sendOk : Nat → Bool) (st : WSState) (uid : String)
    (msg : String) (hnd : st.active_connections.Nodup) :
    ((∀ p ∈ st.connection_info, p.2.user_id ≠ some uid) →
        send_to_user sendOk st uid msg = ⟨st, false, [], []⟩) ∧
    (∀ c info,
        st.connection_info.find? (fun p => p.2.user_id == some uid) =
          some (c, info) →
        (send_to_user sendOk st uid msg).found = true ∧
        (send_to_user sendOk st uid msg).attempts = [(c, msg)] ∧
        (sendOk c = true → (send_to_user sendOk st uid msg).state = st) ∧
        (sendOk c = false →
          c ∉ (send_to_user sendOk st uid msg).state.active_connections)) := by
  constructor
  · intro hnone
    have hfind : st.connection_info.find?
        (fun p => p.2.user_id == some uid) = none := by
      rw [List.find?_eq_none]
      intro p hp
      simp only [beq_iff_eq]
      exact hnone p hp
    simp [send_to_user, hfind]
  · intro c info hfind
    by_cases hok : sendOk c = true
    · refine ⟨?_, ?_, ?_, ?_⟩
      · simp [send_to_user, hfind, send_personal_message, hok]
      · simp [send_to_user, hfind, send_personal_message, hok]
      · intro _; simp [send_to_user, hfind, send_personal_message, hok]
      · intro hfalse; rw [hok] at hfalse; cases hfalse
    · have hok' : sendOk c = false := by
        cases h : sendOk c with
        | true => exact absurd h hok
        | false => rfl
      refine ⟨?_, ?_, ?_, ?_⟩
      · simp [send_to_user, hfind, send_personal_message, hok']
      · simp [send_to_user, hfind, send_personal_message, hok']
      · intro htrue; rw [htrue] at hok'; cases hok'
      · intro _
        have hstate : (send_to_user sendOk st uid msg).state = disconnect st c := by
          simp [send_to_user, hfind, send_personal_message, hok']
        rw [hstate, disconnect_active]
        exact hnd.not_mem_erase

/-- C7 witness: a one-user registry whose send fails — the match is
found, attempted, and the channel is pruned. -/
theorem C7_send_to_user_witness :
    (send_to_user (fun _ => false) (connect wsInit 0 (some "u")) "u" "m").found
        = true ∧
      (send_to_user (fun _ => false) (connect wsInit 0 (some "u")) "u" "m").attempts
        = [(0, "m")] ∧
      0 ∉ (send_to_user (fun _ => false)
          (connect wsInit 0 (some "u")) "u" "m").state.active_connections := by
  have h := (C7_send_to_user (fun _ => false) (connect wsInit 0 (some "u"))
      "u" "m" (by decide)).2 0 ⟨some "u", none, none⟩ (by decide)
  exact ⟨h.1, h.2.1, h.2.2.2 rfl⟩

/-- Modelled from the spec's words: a pong reply conforming to the
claimed server → client envelope `{"type": string, "data": payload}` with
type `"pong"` — the dict has a `"type"` key equal to `"pong"` and a
`"data"` key carrying the payload. -/
def specPongEnvelope (msg : List (String × String)) : Prop :=
  msg.lookup "type" = some "pong" ∧ (msg.lookup "data").isSome = true

instance (msg : List (String × String)) : Decidable (specPongEnvelope msg) := by
  unfold specPongEnvelope; infer_instance

/-- C8 counterexample: the reply the endpoint actually sends has no
`"data"` key (the status string sits under `"message"`), so it does not
conform to the claimed `{"type", "data"}` envelope. -/
theorem C8_pong_counterexample :
    ¬ specPongEnvelope (websocket_endpoint_reply "ping") := by
  decide

/-- C8 amended: in reply to every client text frame, the server sends
the dict `{"type": "pong", "message": "연결 유지됨"}` — type `"pong"` and
a status string, but under the key `"message"` rather than `"data"`, and
independent of the frame's content. -/
theorem C8_pong_reply (frame : String) :
    (websocket_endpoint_reply frame).lookup "type" = some "pong" ∧
    (websocket_endpoint_reply frame).lookup "message" = some "연결 유지됨" ∧
    (websocket_endpoint_reply frame).lookup "data" = none ∧
    websocket_endpoint_reply frame = websocket_endpoint_reply "" := by
  exact ⟨by rfl, by rfl, by rfl, rfl⟩

/-- Modelled from the spec's words: `register` "adds channel to the
active set with current timestamp metadata" — the stored metadata entry
carries the current clock value in both the connection timestamp and the
last-activity timestamp. -/
def specRegisterTimestamps (st : WSState) (ws : Nat) (now : Nat) : Prop :=
  (st.connection_info.lookup ws).map ConnInfo.connected_at = some (some now) ∧
  (st.connection_info.lookup ws).map ConnInfo.last_activity = some (some now)

instance (st : WSState) (ws now : Nat) :
    Decidable (specRegisterTimestamps st ws now) := by
  unfold specRegisterTimestamps; infer_instance

/-- C9 counterexample: after a successful `connect` the stored metadata
is `{'user_id': ..., 'connected_at': None, 'last_activity': None}` — the
timestamp fields are the Python `None`, not the current time. -/
theorem C9_timestamps_counterexample :
    (connect wsInit 0 none).connection_info.lookup 0 =
        some ⟨none, none, none⟩ ∧
      ¬ specRegisterTimestamps (connect wsInit 0 none) 0 0 := by
  decide

/-- C9 amended: `register` completes the handshake first — on handshake
failure the exception surfaces to the caller and the registry is
unchanged (the channel is never added); on success the channel is added
to the active set with a metadata entry holding the client id and both
timestamp fields set to `None` (no clock is read). -/
theorem C9_register_handshake_first (acceptOk : Bool) (st : WSState)
    (ws : Nat) (uid : Option String) :
    (acceptOk = false →
      connectE acceptOk st ws uid = .error () ∧
      runConnect acceptOk st ws uid = st) ∧
    (acceptOk = true →
      connectE acceptOk st ws uid = .ok (connect st ws uid) ∧
      ws ∈ (connect st ws uid).active_connections ∧
      (connect st ws uid).connection_info.lookup ws =
        some ⟨uid, none, none⟩) := by
  constructor
  · intro h; subst h
    exact ⟨rfl, rfl⟩
  · intro h; subst h
    refine ⟨rfl, ?_, ?_⟩
    · simp [connect]
    · exact dictSet_lookup st.connection_info ws ⟨uid, none, none⟩

/-- C9 witness: a failed handshake leaves the fresh registry unchanged; a
successful one stores null timestamps. -/
theorem C9_register_handshake_first_witness :
    runConnect false wsInit 0 none = wsInit ∧
      (connect wsInit 0 none).connection_info.lookup 0 =
        some ⟨none, none, none⟩ :=
  ⟨((C9_register_handshake_first false wsInit 0 none).1 rfl).2,
   ((C9_register_handshake_first true wsInit 0 none).2 rfl).2.2⟩

/-- C10 counterexample: connecting the same channel twice (unguarded in
the source) yields a state where membership still agrees, but one
`disconnect` removes only the first list occurrence while popping the
single dict entry — after it the channel is in `active_connections` with
no `connection_info` entry, so `disconnect` does not preserve the claimed
iff-invariant. -/
theorem C10_invariant_counterexample :
    MembershipAgrees (connect (connect wsInit 0 none) 0 none) ∧
      ¬ MembershipAgrees
          (disconnect (connect (connect wsInit 0 none) 0 none) 0) := by
  decide

/-- C10 amended: from any state satisfying the registry invariant
(membership agreement plus duplicate-freeness), every operation preserves
the invariant — `connect` for a channel not currently active, and
`disconnect`, `broadcast`, `send_personal_message` and `send_to_user`
unconditionally; consequently `count()` equals the number of metadata
entries, and a channel pruned by a failed send disappears from both the
active list and the metadata dict. -/
theorem C10_registry_invariant (st : WSState) (hInv : RegistryInvariant st) :
    (∀ ws uid, ws ∉ st.active_connections →
        RegistryInvariant (connect st ws uid)) ∧
    (∀ ws, RegistryInvariant (disconnect st ws)) ∧
    (∀ sendOk msg, RegistryInvariant (broadcast sendOk st msg).state) ∧
    (∀ sendOk msg ws,
        RegistryInvariant (send_personal_message sendOk st msg ws).state) ∧
    (∀ sendOk uid msg,
        RegistryInvariant (send_to_user sendOk st uid msg).state) ∧
    get_connection_count st = st.connection_info.length ∧
    (∀ sendOk msg ws, sendOk ws = false →
        ws ∉ (send_personal_message sendOk st msg ws).state.active_connections ∧
        ws ∉ keysOf (send_personal_message sendOk st msg ws).state) := by
  have hPersonal : ∀ sendOk msg ws,
      RegistryInvariant (send_personal_message sendOk st msg ws).state := by
    intro sendOk msg ws
    by_cases h : sendOk ws = true
    · simpa [send_personal_message, h] using hInv
    · have h' : sendOk ws = false := by
        cases hh : sendOk ws with
        | true => exact absurd hh h
        | false => rfl
      simpa [send_personal_message, h'] using
        registryInvariant_disconnect st ws hInv
  refine ⟨?_, ?_, ?_, hPersonal, ?_, ?_, ?_⟩
  · intro ws uid hws
    exact registryInvariant_connect st ws uid hInv hws
  · intro ws
    exact registryInvariant_disconnect st ws hInv
  · intro sendOk msg
    unfold broadcast
    by_cases h : st.active_connections.isEmpty
    · simpa [h] using hInv
    · simpa [h] using registryInvariant_foldl_disconnect
        (st.active_connections.filter (fun c => !sendOk c)) st hInv
  · intro sendOk uid msg
    cases hfind : st.connection_info.find?
        (fun p => p.2.user_id == some uid) with
    | none => simpa [send_to_user, hfind] using hInv
    | some p =>
        obtain ⟨c, info⟩ := p
        simpa [send_to_user, hfind] using hPersonal sendOk msg c
  · exact count_eq_info_length st hInv
  · intro sendOk msg ws hfail
    have hstate : (send_personal_message sendOk st msg ws).state =
        disconnect st ws := by
      simp [send_personal_message, hfail]
    rw [hstate]
    exact disconnect_removes st ws hInv

/-- C10 witness: a one-channel registry satisfying the invariant; the
theorem gives preservation under `disconnect`. -/
theorem C10_registry_invariant_witness :
    RegistryInvariant (connect wsInit 0 (some "u")) ∧
      RegistryInvariant (disconnect (connect wsInit 0 (some "u")) 0) :=
  ⟨by decide,
   (C10_registry_invariant (connect wsInit 0 (some "u")) (by decide)).2.1 0⟩

end LovebugMap
